import Mathlib

/-
Verification of the asynchronous task orchestration and resilience layer of
BSM (src/bsm/core/async_manager.py and src/bsm/core/ai_providers.py),
via a shallow embedding in Lean 4.

Times and delays (Python floats) are modelled as rationals; exceptions are
modelled as string identities; Python dicts returned by providers are
modelled as a structure whose Option-valued fields record key presence.
-/

namespace BSM

/- ## Circuit breaker (src/bsm/core/async_manager.py, class CircuitBreaker) -/

/-- The three states of the breaker: the strings "CLOSED", "OPEN",
"HALF_OPEN" in the source. -/
inductive CBState where
  | Closed
  | Open
  | HalfOpen
deriving DecidableEq, Repr

/-- Configuration and mutable fields of `CircuitBreaker.__init__`.
`expected_exception` is represented at call sites by a Boolean flag on each
raised exception saying whether `except self.expected_exception` matches it. -/
structure CircuitBreaker where
  failure_threshold : Nat
  recovery_timeout : ℚ
  failure_count : Nat
  last_failure_time : Option ℚ
  state : CBState
deriving DecidableEq, Repr

/-- CircuitBreaker(failure_threshold, recovery_timeout): failure count 0,
no last failure time, state CLOSED. -/
def CircuitBreaker.init (threshold : Nat) (timeout : ℚ) : CircuitBreaker :=
  { failure_threshold := threshold
    recovery_timeout := timeout
    failure_count := 0
    last_failure_time := none
    state := CBState.Closed }

/-- Behaviour of the wrapped callable on one call: it returns a value, or
raises an exception; `matching` records whether the exception is an instance
of the configured `expected_exception` class. -/
inductive CallOutcome (α : Type) where
  | success (v : α)
  | failure (matching : Bool) (e : String)
deriving DecidableEq, Repr

/-- What one pass through `CircuitBreaker.call` does for the caller. -/
inductive CallResult (α : Type) where
  | yielded (v : α)
  | raisedOpenError
  | raised (e : String)
  | pythonTypeError
deriving DecidableEq, Repr

/-- The body of `CircuitBreaker.call` from the `try` onwards: invoke the
callable; on success, reset a HALF_OPEN breaker to CLOSED with count 0 and
yield the value; on a matching exception, increment the count, record the
failure time, open the breaker when the count reaches the threshold and
re-raise; a non-matching exception propagates without touching the state. -/
def CircuitBreaker.runBody (cb : CircuitBreaker) (tFail : ℚ)
    (outcome : CallOutcome α) : CircuitBreaker × CallResult α × Bool :=
  match outcome with
  | CallOutcome.success v =>
      if cb.state = CBState.HalfOpen then
        ({cb with state := CBState.Closed, failure_count := 0},
         CallResult.yielded v, true)
      else
        (cb, CallResult.yielded v, true)
  | CallOutcome.failure matching e =>
      if matching then
        let cb' := {cb with failure_count := cb.failure_count + 1,
                            last_failure_time := some tFail}
        if cb'.failure_count ≥ cb'.failure_threshold then
          ({cb' with state := CBState.Open}, CallResult.raised e, true)
        else
          (cb', CallResult.raised e, true)
      else
        (cb, CallResult.raised e, true)

/-- `CircuitBreaker.call`: `tNow` is the `time.time()` read in the OPEN
check, `tFail` the one read in the failure handler.  The Boolean component
records whether the wrapped callable was invoked.  In state OPEN before the
recovery timeout has elapsed, the source raises Exception("Circuit breaker
is OPEN") without invoking the callable; with `last_failure_time = None` the
subtraction would be a Python TypeError (unreachable from `init`). -/
def CircuitBreaker.call (cb : CircuitBreaker) (tNow tFail : ℚ)
    (outcome : CallOutcome α) : CircuitBreaker × CallResult α × Bool :=
  if cb.state = CBState.Open then
    match cb.last_failure_time with
    | none => (cb, CallResult.pythonTypeError, false)
    | some t =>
        if tNow - t ≥ cb.recovery_timeout then
          CircuitBreaker.runBody {cb with state := CBState.HalfOpen} tFail outcome
        else
          (cb, CallResult.raisedOpenError, false)
  else
    CircuitBreaker.runBody cb tFail outcome

/-- States of the breaker reachable from `init` by any sequence of calls. -/
inductive CBReachable : CircuitBreaker → Prop where
  | init (threshold : Nat) (timeout : ℚ) :
      CBReachable (CircuitBreaker.init threshold timeout)
  | step {cb : CircuitBreaker} (tNow tFail : ℚ) (outcome : CallOutcome Unit) :
      CBReachable cb → CBReachable (CircuitBreaker.call cb tNow tFail outcome).1

/-- Invariant of reachable breakers: away from CLOSED, the failure count has
reached the threshold and a failure time is recorded. -/
def CBInv (cb : CircuitBreaker) : Prop :=
  cb.state ≠ CBState.Closed →
    cb.failure_threshold ≤ cb.failure_count ∧ cb.last_failure_time ≠ none

theorem runBody_inv (cb : CircuitBreaker) (tFail : ℚ) (o : CallOutcome α)
    (h : CBInv cb) : CBInv (cb.runBody tFail o).1 := by
  rcases o with v | ⟨matching, e⟩
  · simp only [CircuitBreaker.runBody]
    split
    · intro hs; simp at hs
    · exact h
  · simp only [CircuitBreaker.runBody]
    rcases matching with _ | _
    · simpa using h
    · simp only [if_true]
      split
      · rename_i hge
        intro _
        exact ⟨le_trans hge (Nat.le_refl _), by simp⟩
      · rename_i hlt
        intro hs
        rcases h (fun hc => by rw [hc] at hs; exact hs rfl) with ⟨h1, h2⟩
        · exact ⟨Nat.le_succ_of_le h1, by simp⟩

theorem call_inv (cb : CircuitBreaker) (tNow tFail : ℚ) (o : CallOutcome α)
    (h : CBInv cb) : CBInv (cb.call tNow tFail o).1 := by
  simp only [CircuitBreaker.call]
  split
  · rename_i hopen
    rcases hlast : cb.last_failure_time with _ | t
    · simpa using h
    · simp only
      split
      · apply runBody_inv
        intro _
        rcases h (by rw [hopen]; simp) with ⟨h1, _⟩
        exact ⟨h1, by simp⟩
      · exact h
  · exact runBody_inv cb tFail o h

theorem reachable_inv {cb : CircuitBreaker} (h : CBReachable cb) : CBInv cb := by
  induction h with
  | init threshold timeout =>
      intro hs
      simp [CircuitBreaker.init] at hs
  | step tNow tFail outcome _ ih =>
      exact call_inv _ tNow tFail outcome ih

theorem runBody_invoked (cb : CircuitBreaker) (tFail : ℚ) (o : CallOutcome α) :
    (cb.runBody tFail o).2.2 = true := by
  rcases o with v | ⟨matching, e⟩ <;> simp only [CircuitBreaker.runBody]
  · split <;> rfl
  · rcases matching with _ | _
    · rfl
    · simp only [if_true]
      split <;> rfl

/-- C3.  The circuit breaker follows the specified state machine: in Closed a
matching failure increments the count, opening the breaker and recording the
failure time exactly when the count reaches the threshold; in Open before
the recovery timeout every call raises immediately without invoking the
callable and without touching the state; once the timeout has elapsed the
next call switches to HalfOpen and is let through; a HalfOpen success resets
to Closed with count 0; a HalfOpen failure (the count being at the threshold,
as it is in every reachable non-Closed state) reopens the breaker and
refreshes the failure time. -/
theorem bsm_c3_circuit_breaker_state_machine :
    (∀ (cb : CircuitBreaker) (tNow tFail : ℚ) (e : String),
      cb.state = CBState.Closed →
      (cb.call tNow tFail (CallOutcome.failure (α := Unit) true e)).1.failure_count
          = cb.failure_count + 1 ∧
      (cb.failure_threshold ≤ cb.failure_count + 1 →
        (cb.call tNow tFail (CallOutcome.failure (α := Unit) true e)).1.state
            = CBState.Open ∧
        (cb.call tNow tFail (CallOutcome.failure (α := Unit) true e)).1.last_failure_time
            = some tFail) ∧
      (cb.failure_count + 1 < cb.failure_threshold →
        (cb.call tNow tFail (CallOutcome.failure (α := Unit) true e)).1.state
            = CBState.Closed)) ∧
    (∀ (cb : CircuitBreaker) (tNow tFail t : ℚ) (o : CallOutcome Unit),
      cb.state = CBState.Open → cb.last_failure_time = some t →
      tNow - t < cb.recovery_timeout →
      cb.call tNow tFail o = (cb, CallResult.raisedOpenError, false)) ∧
    (∀ (cb : CircuitBreaker) (tNow tFail t : ℚ) (o : CallOutcome Unit),
      cb.state = CBState.Open → cb.last_failure_time = some t →
      cb.recovery_timeout ≤ tNow - t →
      cb.call tNow tFail o
          = CircuitBreaker.runBody {cb with state := CBState.HalfOpen} tFail o ∧
      (cb.call tNow tFail o).2.2 = true) ∧
    (∀ (cb : CircuitBreaker) (tNow tFail : ℚ),
      cb.state = CBState.HalfOpen →
      cb.call tNow tFail (CallOutcome.success ())
          = ({cb with state := CBState.Closed, failure_count := 0},
             CallResult.yielded (), true)) ∧
    (∀ (cb : CircuitBreaker) (tNow tFail : ℚ) (e : String),
      cb.state = CBState.HalfOpen → cb.failure_threshold ≤ cb.failure_count →
      (cb.call tNow tFail (CallOutcome.failure (α := Unit) true e)).1.state
          = CBState.Open ∧
      (cb.call tNow tFail (CallOutcome.failure (α := Unit) true e)).1.last_failure_time
          = some tFail) ∧
    (∀ cb : CircuitBreaker, CBReachable cb → cb.state ≠ CBState.Closed →
      cb.failure_threshold ≤ cb.failure_count ∧ cb.last_failure_time ≠ none) := by
  refine ⟨?_, ?_, ?_, ?_, ?_, ?_⟩
  · intro cb tNow tFail e hclosed
    have hno : cb.state ≠ CBState.Open := by rw [hclosed]; simp
    refine ⟨?_, ?_, ?_⟩
    · simp only [CircuitBreaker.call, if_neg hno, CircuitBreaker.runBody]
      split
      · split <;> rfl
      · rename_i h
        exact absurd trivial h
    · intro hth
      constructor <;> simp [CircuitBreaker.call, if_neg hno, CircuitBreaker.runBody, hth]
    · intro hlt
      have h2 : ¬ (cb.failure_threshold ≤ cb.failure_count + 1) := Nat.not_le_of_lt hlt
      simp [CircuitBreaker.call, if_neg hno, CircuitBreaker.runBody, h2, hclosed]
  · intro cb tNow tFail t o hopen hlast hlt
    have : ¬ (cb.recovery_timeout ≤ tNow - t) := not_le_of_lt hlt
    simp [CircuitBreaker.call, hopen, hlast, this]
  · intro cb tNow tFail t o hopen hlast hge
    have h1 : cb.call tNow tFail o
        = CircuitBreaker.runBody {cb with state := CBState.HalfOpen} tFail o := by
      simp [CircuitBreaker.call, hopen, hlast, hge]
    exact ⟨h1, by rw [h1]; exact runBody_invoked _ _ _⟩
  · intro cb tNow tFail hhalf
    have hno : cb.state ≠ CBState.Open := by rw [hhalf]; simp
    simp [CircuitBreaker.call, CircuitBreaker.runBody, hno, hhalf]
  · intro cb tNow tFail e hhalf hth
    have hno : cb.state ≠ CBState.Open := by rw [hhalf]; simp
    have hth' : cb.failure_threshold ≤ cb.failure_count + 1 := Nat.le_succ_of_le hth
    simp [CircuitBreaker.call, CircuitBreaker.runBody, hno, hth']
  · intro cb hreach hstate
    exact reachable_inv hreach hstate

/-- Witness for C3 on concrete breakers: a Closed breaker with threshold 1
opens on its first matching failure; an Open breaker (threshold 1, timeout
60, last failure at 0) rejects a call at time 30 unchanged; a HalfOpen
breaker at the threshold reopens on a matching failure; and the reachable
breaker obtained by a matching failure followed by a non-matching failure
after the timeout is HalfOpen with its count at the threshold. -/
theorem bsm_c3_circuit_breaker_state_machine_witness :
    (((CircuitBreaker.init 1 60).call 0 5 (CallOutcome.failure (α := Unit) true "E")).1.state
        = CBState.Open ∧
     ((CircuitBreaker.init 1 60).call 0 5 (CallOutcome.failure (α := Unit) true "E")).1.last_failure_time
        = some 5) ∧
    ({ failure_threshold := 1, recovery_timeout := 60, failure_count := 1,
       last_failure_time := some 0, state := CBState.Open : CircuitBreaker }.call 30 30
        (CallOutcome.success ())
      = ({ failure_threshold := 1, recovery_timeout := 60, failure_count := 1,
           last_failure_time := some 0, state := CBState.Open },
         CallResult.raisedOpenError, false)) ∧
    (1 ≤ ({ failure_threshold := 1, recovery_timeout := 60, failure_count := 1,
            last_failure_time := some 0, state := CBState.HalfOpen : CircuitBreaker }).failure_count ∧
     ({ failure_threshold := 1, recovery_timeout := 60, failure_count := 1,
        last_failure_time := some 0, state := CBState.HalfOpen : CircuitBreaker }.call 100 100
          (CallOutcome.failure (α := Unit) true "E")).1.state = CBState.Open) := by
  have h := bsm_c3_circuit_breaker_state_machine
  refine ⟨(h.1 (CircuitBreaker.init 1 60) 0 5 "E" rfl).2.1 (by decide), ?_, ?_⟩
  · exact h.2.1 _ 30 30 0 (CallOutcome.success ()) rfl rfl (by norm_num)
  · exact ⟨by decide, (h.2.2.2.2.1 _ 100 100 "E" rfl (by decide)).1⟩

theorem runBody_success_yield (cb : CircuitBreaker) (tFail : ℚ) (v : α) :
    (cb.runBody tFail (CallOutcome.success v)).2.1 = CallResult.yielded v := by
  simp only [CircuitBreaker.runBody]
  split <;> rfl

theorem runBody_failure_raise (cb : CircuitBreaker) (tFail : ℚ) (m : Bool) (e : String) :
    (cb.runBody tFail (CallOutcome.failure (α := α) m e)).2.1 = CallResult.raised e := by
  simp only [CircuitBreaker.runBody]
  rcases m with _ | _
  · rfl
  · simp only [if_true]
    split <;> rfl

theorem runBody_nonmatching_frame (cb : CircuitBreaker) (tFail : ℚ) (e : String) :
    (cb.runBody tFail (CallOutcome.failure (α := α) false e)).1 = cb := rfl

/-- A single breaker instance with threshold 1 that has opened after one
matching failure at time 0: the state reached from `init 1 60` by one call
whose callable raises a matching exception. -/
def cbOpenEx : CircuitBreaker :=
  { failure_threshold := 1, recovery_timeout := 60, failure_count := 1,
    last_failure_time := some 0, state := CBState.Open }

theorem cbOpenEx_call_elapsed (tFail : ℚ) (o : CallOutcome Unit) :
    cbOpenEx.call 100 tFail o
      = CircuitBreaker.runBody {cbOpenEx with state := CBState.HalfOpen} tFail o := by
  have h : cbOpenEx.recovery_timeout ≤ (100 : ℚ) - 0 := by norm_num [cbOpenEx]
  simp [CircuitBreaker.call, cbOpenEx, h]
  intro hc
  exact absurd hc (by norm_num)

/-- C8 counterexample.  `cbOpenEx` is reachable and in state Open; a call at
time 100 (recovery timeout elapsed) whose callable raises a non-matching
exception leaves the breaker in state HalfOpen: the exception passed through,
but the breaker state was NOT left unchanged, contradicting the claim that
non-matching exceptions leave state, failureCount and lastFailureAt
unchanged. -/
theorem bsm_c8_counterexample :
    CBReachable cbOpenEx ∧ cbOpenEx.state = CBState.Open ∧
    (cbOpenEx.call 100 100 (CallOutcome.failure (α := Unit) false "ValueError")).2.1
        = CallResult.raised "ValueError" ∧
    (cbOpenEx.call 100 100 (CallOutcome.failure (α := Unit) false "ValueError")).1.state
        = CBState.HalfOpen ∧
    (cbOpenEx.call 100 100 (CallOutcome.failure (α := Unit) false "ValueError")).1.state
        ≠ cbOpenEx.state := by
  refine ⟨?_, rfl, ?_, ?_, ?_⟩
  · have h := @CBReachable.step (CircuitBreaker.init 1 60) 0 0
      (CallOutcome.failure true "E") (CBReachable.init 1 60)
    have he : ((CircuitBreaker.init 1 60).call 0 0
        (CallOutcome.failure (α := Unit) true "E")).1 = cbOpenEx := by decide
    rw [he] at h
    exact h
  · rw [cbOpenEx_call_elapsed]; rfl
  · rw [cbOpenEx_call_elapsed]; rfl
  · rw [cbOpenEx_call_elapsed]; decide

/-- C8 amended.  For every call through the breaker in which the wrapped
callable is actually invoked: on success the callable's result is yielded
unchanged; on a failure matching the configured exception class the same
exception is re-raised after the state update; and on a non-matching
exception the exception passes through with failureCount and lastFailureAt
unchanged and the state unchanged — except that a call entered in state Open
(necessarily with the recovery timeout elapsed, or the callable would not
have been invoked) has already moved the breaker to HalfOpen before the
callable ran, and stays HalfOpen. -/
theorem bsm_c8_amended_pass_through :
    (∀ (cb : CircuitBreaker) (tNow tFail : ℚ) (v : Unit),
      (cb.call tNow tFail (CallOutcome.success v)).2.2 = true →
      (cb.call tNow tFail (CallOutcome.success v)).2.1 = CallResult.yielded v) ∧
    (∀ (cb : CircuitBreaker) (tNow tFail : ℚ) (m : Bool) (e : String),
      (cb.call tNow tFail (CallOutcome.failure (α := Unit) m e)).2.2 = true →
      (cb.call tNow tFail (CallOutcome.failure (α := Unit) m e)).2.1
          = CallResult.raised e) ∧
    (∀ (cb : CircuitBreaker) (tNow tFail : ℚ) (e : String),
      (cb.call tNow tFail (CallOutcome.failure (α := Unit) false e)).2.2 = true →
      (cb.call tNow tFail (CallOutcome.failure (α := Unit) false e)).1.failure_count
          = cb.failure_count ∧
      (cb.call tNow tFail (CallOutcome.failure (α := Unit) false e)).1.last_failure_time
          = cb.last_failure_time ∧
      (cb.state ≠ CBState.Open →
        (cb.call tNow tFail (CallOutcome.failure (α := Unit) false e)).1.state
            = cb.state) ∧
      (cb.state = CBState.Open →
        (cb.call tNow tFail (CallOutcome.failure (α := Unit) false e)).1.state
            = CBState.HalfOpen)) := by
  have hcall : ∀ (cb : CircuitBreaker) (tNow tFail : ℚ) (o : CallOutcome Unit),
      (cb.call tNow tFail o).2.2 = true →
      (cb.call tNow tFail o
          = CircuitBreaker.runBody {cb with state := CBState.HalfOpen} tFail o
        ∧ cb.state = CBState.Open) ∨
      (cb.call tNow tFail o = CircuitBreaker.runBody cb tFail o
        ∧ cb.state ≠ CBState.Open) := by
    intro cb tNow tFail o hinv
    by_cases hopen : cb.state = CBState.Open
    · rcases hlast : cb.last_failure_time with _ | t
      · simp [CircuitBreaker.call, hopen, hlast] at hinv
      · by_cases hel : cb.recovery_timeout ≤ tNow - t
        · left
          exact ⟨by simp [CircuitBreaker.call, hopen, hlast, hel], hopen⟩
        · simp [CircuitBreaker.call, hopen, hlast, hel] at hinv
    · right
      exact ⟨by simp [CircuitBreaker.call, hopen], hopen⟩
  refine ⟨?_, ?_, ?_⟩
  · intro cb tNow tFail v hinv
    rcases hcall cb tNow tFail _ hinv with ⟨heq, _⟩ | ⟨heq, _⟩ <;>
      rw [heq] <;> exact runBody_success_yield _ _ _
  · intro cb tNow tFail m e hinv
    rcases hcall cb tNow tFail _ hinv with ⟨heq, _⟩ | ⟨heq, _⟩ <;>
      rw [heq] <;> exact runBody_failure_raise _ _ _ _
  · intro cb tNow tFail e hinv
    rcases hcall cb tNow tFail _ hinv with ⟨heq, hopen⟩ | ⟨heq, hopen⟩
    · rw [heq, runBody_nonmatching_frame]
      exact ⟨rfl, rfl, fun hc => absurd hopen hc, fun _ => rfl⟩
    · rw [heq, runBody_nonmatching_frame]
      exact ⟨rfl, rfl, fun _ => rfl, fun hc => absurd hc hopen⟩

/-- Witness for the amended C8 at concrete breakers: a fresh Closed breaker
invoked with a successful callable yields the value; `cbOpenEx` invoked
after the timeout with a matching failure re-raises it; a Closed breaker
invoked with a non-matching exception keeps count, time and state. -/
theorem bsm_c8_amended_pass_through_witness :
    ((CircuitBreaker.init 2 60).call 0 0 (CallOutcome.success ())).2.1
        = CallResult.yielded () ∧
    (cbOpenEx.call 100 100 (CallOutcome.failure (α := Unit) true "E")).2.1
        = CallResult.raised "E" ∧
    ((CircuitBreaker.init 2 60).call 0 0 (CallOutcome.failure (α := Unit) false "V")).1.state
        = (CircuitBreaker.init 2 60).state := by
  have h := bsm_c8_amended_pass_through
  refine ⟨h.1 (CircuitBreaker.init 2 60) 0 0 () (by decide), ?_, ?_⟩
  · exact h.2.1 cbOpenEx 100 100 true "E" (by rw [cbOpenEx_call_elapsed]; decide)
  · exact (h.2.2 (CircuitBreaker.init 2 60) 0 0 "V" (by decide)).2.2.1 (by decide)

theorem call_count_cases (cb : CircuitBreaker) (tNow tFail : ℚ) (o : CallOutcome Unit) :
    (cb.call tNow tFail o).1.failure_count = cb.failure_count ∨
    (cb.call tNow tFail o).1.failure_count = cb.failure_count + 1 ∨
    ((cb.call tNow tFail o).1.failure_count = 0 ∧
     (cb.call tNow tFail o).1.state = CBState.Closed ∧
     o = CallOutcome.success () ∧ cb.state ≠ CBState.Closed) := by
  have hbody : ∀ (cb' : CircuitBreaker),
      (cb'.runBody tFail o).1.failure_count = cb'.failure_count ∨
      (cb'.runBody tFail o).1.failure_count = cb'.failure_count + 1 ∨
      ((cb'.runBody tFail o).1.failure_count = 0 ∧
       (cb'.runBody tFail o).1.state = CBState.Closed ∧
       o = CallOutcome.success () ∧ cb'.state = CBState.HalfOpen) := by
    intro cb'
    rcases o with v | ⟨m, e⟩
    · by_cases hh : cb'.state = CBState.HalfOpen
      · exact Or.inr (Or.inr (by simp [CircuitBreaker.runBody, hh]))
      · exact Or.inl (by simp [CircuitBreaker.runBody, hh])
    · rcases m with _ | _
      · exact Or.inl rfl
      · right; left
        simp only [CircuitBreaker.runBody, if_true]
        split <;> rfl
  by_cases hopen : cb.state = CBState.Open
  · rcases hlast : cb.last_failure_time with _ | t
    · exact Or.inl (by simp [CircuitBreaker.call, hopen, hlast])
    · by_cases hel : cb.recovery_timeout ≤ tNow - t
      · have heq : cb.call tNow tFail o
            = CircuitBreaker.runBody {cb with state := CBState.HalfOpen} tFail o := by
          simp [CircuitBreaker.call, hopen, hlast, hel]
        rw [heq]
        rcases hbody {cb with state := CBState.HalfOpen} with h | h | ⟨h1, h2, h3, _⟩
        · exact Or.inl h
        · exact Or.inr (Or.inl h)
        · exact Or.inr (Or.inr ⟨h1, h2, h3, by rw [hopen]; simp⟩)
      · exact Or.inl (by simp [CircuitBreaker.call, hopen, hlast, hel])
  · have heq : cb.call tNow tFail o = CircuitBreaker.runBody cb tFail o := by
      simp [CircuitBreaker.call, hopen]
    rw [heq]
    rcases hbody cb with h | h | ⟨h1, h2, h3, h4⟩
    · exact Or.inl h
    · exact Or.inr (Or.inl h)
    · exact Or.inr (Or.inr ⟨h1, h2, h3, by rw [h4]; simp⟩)

/-- C10.  In Closed, a successful call is a complete no-op on the breaker
(state, count and last failure time unchanged, value yielded); the failure
count strictly decreases only when a successful trial resets it to zero and
closes the breaker, which can only happen from HalfOpen or from Open (the
elapsed-timeout call that becomes the HalfOpen trial); and from Closed the
breaker opens exactly when the cumulative count of matching failures —
successes never having reset it — reaches the threshold. -/
theorem bsm_c10_closed_success_frame :
    (∀ (cb : CircuitBreaker) (tNow tFail : ℚ),
      cb.state = CBState.Closed →
      cb.call tNow tFail (CallOutcome.success ())
          = (cb, CallResult.yielded (), true)) ∧
    (∀ (cb : CircuitBreaker) (tNow tFail : ℚ) (o : CallOutcome Unit),
      (cb.call tNow tFail o).1.failure_count < cb.failure_count →
      (cb.call tNow tFail o).1.failure_count = 0 ∧
      (cb.call tNow tFail o).1.state = CBState.Closed ∧
      o = CallOutcome.success () ∧
      (cb.state = CBState.HalfOpen ∨ cb.state = CBState.Open)) ∧
    (∀ (cb : CircuitBreaker) (tNow tFail : ℚ) (e : String),
      cb.state = CBState.Closed →
      cb.failure_threshold ≤ cb.failure_count + 1 →
      (cb.call tNow tFail (CallOutcome.failure (α := Unit) true e)).1.state
          = CBState.Open) := by
  refine ⟨?_, ?_, ?_⟩
  · intro cb tNow tFail hclosed
    have hno : cb.state ≠ CBState.Open := by rw [hclosed]; simp
    have hnh : cb.state ≠ CBState.HalfOpen := by rw [hclosed]; simp
    simp [CircuitBreaker.call, CircuitBreaker.runBody, hno, hnh]
  · intro cb tNow tFail o hlt
    rcases call_count_cases cb tNow tFail o with h | h | ⟨h1, h2, h3, h4⟩
    · rw [h] at hlt; exact absurd hlt (lt_irrefl _)
    · rw [h] at hlt; omega
    · refine ⟨h1, h2, h3, ?_⟩
      rcases hs : cb.state with _ | _ | _
      · exact absurd hs h4
      · exact Or.inr rfl
      · exact Or.inl rfl
  · intro cb tNow tFail e hclosed hth
    have hno : cb.state ≠ CBState.Open := by rw [hclosed]; simp
    simp [CircuitBreaker.call, CircuitBreaker.runBody, hno, hth]

/-- Witness for C10: a Closed breaker with one prior failure (count 1,
threshold 2) is untouched by a success; a HalfOpen breaker's success resets
its count from 1 to 0; a Closed breaker with count 1 and threshold 2 opens
on the next matching failure. -/
theorem bsm_c10_closed_success_frame_witness :
    ({ failure_threshold := 2, recovery_timeout := 60, failure_count := 1,
       last_failure_time := some 0, state := CBState.Closed : CircuitBreaker }.call 10 10
        (CallOutcome.success ())
      = ({ failure_threshold := 2, recovery_timeout := 60, failure_count := 1,
           last_failure_time := some 0, state := CBState.Closed },
         CallResult.yielded (), true)) ∧
    (({ failure_threshold := 1, recovery_timeout := 60, failure_count := 1,
        last_failure_time := some 0, state := CBState.HalfOpen : CircuitBreaker }.call 100 100
          (CallOutcome.success ())).1.failure_count = 0) ∧
    (({ failure_threshold := 2, recovery_timeout := 60, failure_count := 1,
        last_failure_time := some 0, state := CBState.Closed : CircuitBreaker }.call 10 10
          (CallOutcome.failure (α := Unit) true "E")).1.state = CBState.Open) := by
  have h := bsm_c10_closed_success_frame
  refine ⟨h.1 _ 10 10 rfl, ?_, ?_⟩
  · exact (h.2.1 _ 100 100 (CallOutcome.success ()) (by decide)).1
  · exact h.2.2 _ 10 10 "E" rfl (by decide)

/- ## Retry policy (src/bsm/core/async_manager.py, class RetryPolicy) -/

/-- Configuration of `RetryPolicy.__init__`. -/
structure RetryPolicy where
  max_attempts : Nat
  initial_delay : ℚ
  max_delay : ℚ
  exponential_base : ℚ
deriving DecidableEq, Repr

/-- The delay computed after failed attempt `attempt` (0-based):
min(initial_delay * exponential_base ** attempt, max_delay). -/
def RetryPolicy.delay (p : RetryPolicy) (attempt : Nat) : ℚ :=
  min (p.initial_delay * p.exponential_base ^ attempt) p.max_delay

/-- The loop of `RetryPolicy.execute`.  `f attempt` is what
`await func(*args, **kwargs)` does on the given 0-based attempt; `fuel` is
the number of loop iterations left and `last` the current `last_exception`.
Returns the final outcome, the number of invocations of `func` performed,
and the list of delays slept, in order.  When the loop ends without a
success the source raises `last_exception` (a Python TypeError if it is
still None, which happens only for `max_attempts = 0`). -/
def retryGo (p : RetryPolicy) (f : Nat → Except String α) :
    Nat → Nat → Option String → Except String α × Nat × List ℚ
  | 0, _, last => (Except.error (last.getD "TypeError: exceptions must derive from BaseException"), 0, [])
  | fuel + 1, attempt, _ =>
    match f attempt with
    | Except.ok v => (Except.ok v, 1, [])
    | Except.error e =>
      if attempt < p.max_attempts - 1 then
        ((retryGo p f fuel (attempt + 1) (some e)).1,
         (retryGo p f fuel (attempt + 1) (some e)).2.1 + 1,
         p.delay attempt :: (retryGo p f fuel (attempt + 1) (some e)).2.2)
      else
        ((retryGo p f fuel (attempt + 1) (some e)).1,
         (retryGo p f fuel (attempt + 1) (some e)).2.1 + 1,
         (retryGo p f fuel (attempt + 1) (some e)).2.2)

theorem retryGo_succ (p : RetryPolicy) (f : Nat → Except String α)
    (fuel a : Nat) (last : Option String) :
    retryGo p f (fuel + 1) a last
      = match f a with
        | Except.ok v => (Except.ok v, 1, [])
        | Except.error e =>
          if a < p.max_attempts - 1 then
            ((retryGo p f fuel (a + 1) (some e)).1,
             (retryGo p f fuel (a + 1) (some e)).2.1 + 1,
             p.delay a :: (retryGo p f fuel (a + 1) (some e)).2.2)
          else
            ((retryGo p f fuel (a + 1) (some e)).1,
             (retryGo p f fuel (a + 1) (some e)).2.1 + 1,
             (retryGo p f fuel (a + 1) (some e)).2.2) := rfl

/-- `RetryPolicy.execute`: run the attempt loop from attempt 0 with
`last_exception = None`. -/
def RetryPolicy.execute (p : RetryPolicy) (f : Nat → Except String α) :
    Except String α × Nat × List ℚ :=
  retryGo p f p.max_attempts 0 none

theorem retryGo_count_le (p : RetryPolicy) (f : Nat → Except String α) :
    ∀ (fuel a : Nat) (last : Option String), (retryGo p f fuel a last).2.1 ≤ fuel := by
  intro fuel
  induction fuel with
  | zero => intro a last; simp [retryGo]
  | succ n ih =>
      intro a last
      simp only [retryGo]
      rcases hf : f a with e | v
      · simp only
        split
        · exact Nat.succ_le_succ (ih (a + 1) (some e))
        · exact Nat.succ_le_succ (ih (a + 1) (some e))
      · simp only
        exact Nat.succ_le_succ (Nat.zero_le n)

theorem retryGo_all_fail (p : RetryPolicy) (f : Nat → Except String α) :
    ∀ (fuel a : Nat) (last : Option String),
      a + fuel = p.max_attempts → 0 < fuel →
      (∀ i, a ≤ i → i < p.max_attempts → ∃ e, f i = Except.error e) →
      (retryGo p f fuel a last).1 = f (p.max_attempts - 1) ∧
      (retryGo p f fuel a last).2.1 = fuel ∧
      (retryGo p f fuel a last).2.2
          = (List.range (fuel - 1)).map (fun i => p.delay (a + i)) := by
  intro fuel
  induction fuel with
  | zero => intro a last _ h0; exact absurd h0 (by omega)
  | succ n ih =>
      intro a last hsum _ hfail
      rcases hfail a (Nat.le_refl a) (by omega) with ⟨e, hfa⟩
      rw [retryGo_succ, hfa]
      rcases n with _ | m
      · have hlast : a = p.max_attempts - 1 := by omega
        have hnotlt : ¬ (a < p.max_attempts - 1) := by omega
        simp only [if_neg hnotlt, retryGo, Option.getD_some]
        refine ⟨by rw [← hlast, hfa], by simp, by simp⟩
      · have hlt : a < p.max_attempts - 1 := by omega
        have hrec := ih (a + 1) (some e) (by omega) (by omega)
          (fun i hi hi2 => hfail i (by omega) hi2)
        simp only [if_pos hlt]
        refine ⟨hrec.1, by rw [hrec.2.1], ?_⟩
        rw [hrec.2.2]
        simp only [Nat.succ_sub_one]
        rw [List.range_succ_eq_map, List.map_cons, List.map_map]
        congr 1
        apply List.map_congr_left
        intro i _
        simp only [Function.comp_apply]
        congr 1
        omega

theorem retryGo_fail_then_ok (p : RetryPolicy) (f : Nat → Except String α) :
    ∀ (j fuel a : Nat) (last : Option String) (v : α),
      j < fuel → a + fuel ≤ p.max_attempts →
      (∀ i, i < j → ∃ e, f (a + i) = Except.error e) →
      f (a + j) = Except.ok v →
      retryGo p f fuel a last
        = (Except.ok v, j + 1, (List.range j).map (fun i => p.delay (a + i))) := by
  intro j
  induction j with
  | zero =>
      intro fuel a last v hj hle _ hok
      rcases fuel with _ | n
      · omega
      · rw [Nat.add_zero] at hok
        rw [retryGo_succ, hok]
        simp
  | succ m ih =>
      intro fuel a last v hj hle hfail hok
      rcases fuel with _ | n
      · omega
      · rcases hfail 0 (by omega) with ⟨e, hfa⟩
        rw [Nat.add_zero] at hfa
        have hlt : a < p.max_attempts - 1 := by omega
        have hrec := ih n (a + 1) (some e) v (by omega) (by omega)
          (fun i hi => by
            rcases hfail (i + 1) (by omega) with ⟨e', he'⟩
            exact ⟨e', by rw [show a + 1 + i = a + (i + 1) by omega]; exact he'⟩)
          (by rw [show a + 1 + m = a + (m + 1) by omega]; exact hok)
        rw [retryGo_succ, hfa]
        simp only [if_pos hlt, hrec, Prod.mk.injEq]
        refine ⟨by simp, by simp, ?_⟩
        rw [List.range_succ_eq_map, List.map_cons, List.map_map]
        congr 1
        apply List.map_congr_left
        intro i _
        simp only [Function.comp_apply]
        congr 1
        omega

/-- C4.  `RetryPolicy.execute` invokes the function at most `max_attempts`
times; on a function failing on the first `max_attempts - 1` attempts and
succeeding on the last, it returns the success value after exactly
`max_attempts` invocations, and the delay slept before (1-based) attempt k
is exactly min(initial_delay * exponential_base^(k-2), max_delay); when
every attempt fails, the exception of the final attempt propagates to the
caller unchanged (earlier ones having been swallowed). -/
theorem bsm_c4_retry_policy :
    (∀ (p : RetryPolicy) (f : Nat → Except String Nat),
      (p.execute f).2.1 ≤ p.max_attempts) ∧
    (∀ (p : RetryPolicy) (f : Nat → Except String Nat) (v : Nat),
      1 ≤ p.max_attempts →
      (∀ i, i < p.max_attempts - 1 → ∃ e, f i = Except.error e) →
      f (p.max_attempts - 1) = Except.ok v →
      (p.execute f).1 = Except.ok v ∧
      (p.execute f).2.1 = p.max_attempts ∧
      (∀ k, 2 ≤ k → k ≤ p.max_attempts →
        (p.execute f).2.2.get? (k - 2)
          = some (min (p.initial_delay * p.exponential_base ^ (k - 2)) p.max_delay))) ∧
    (∀ (p : RetryPolicy) (f : Nat → Except String Nat) (e : String),
      1 ≤ p.max_attempts →
      (∀ i, i < p.max_attempts → ∃ e', f i = Except.error e') →
      f (p.max_attempts - 1) = Except.error e →
      (p.execute f).1 = Except.error e ∧
      (p.execute f).2.1 = p.max_attempts) := by
  refine ⟨?_, ?_, ?_⟩
  · intro p f
    exact retryGo_count_le p f p.max_attempts 0 none
  · intro p f v h1 hfail hok
    have h := retryGo_fail_then_ok p f (p.max_attempts - 1) p.max_attempts 0 none v
      (by omega) (by omega)
      (fun i hi => by rcases hfail i hi with ⟨e, he⟩; exact ⟨e, by rw [Nat.zero_add]; exact he⟩)
      (by rw [Nat.zero_add]; exact hok)
    rw [RetryPolicy.execute, h]
    refine ⟨rfl, ?_, ?_⟩
    · show p.max_attempts - 1 + 1 = p.max_attempts
      omega
    · intro k hk2 hkle
      have hklt : k - 2 < p.max_attempts - 1 := by omega
      show ((List.range (p.max_attempts - 1)).map (fun i => p.delay (0 + i))).get? (k - 2)
          = some (min (p.initial_delay * p.exponential_base ^ (k - 2)) p.max_delay)
      simp only [List.get?_eq_getElem?, List.getElem?_map, List.getElem?_range hklt,
        Option.map_some, Nat.zero_add]
      rfl
  · intro p f e h1 hfail hlast
    have h := retryGo_all_fail p f p.max_attempts 0 none (by omega) (by omega)
      (fun i _ hi2 => hfail i hi2)
    rw [RetryPolicy.execute] at *
    exact ⟨by rw [h.1, hlast], h.2.1⟩

/-- A function for the C4 witness: fails on attempts 0 and 1, succeeds with
42 on every later attempt. -/
def retryFEx : Nat → Except String Nat
  | 0 => Except.error "e0"
  | 1 => Except.error "e1"
  | _ => Except.ok 42

/-- Witness for C4 at the concrete policy (max_attempts 3, initial_delay 1,
max_delay 60, base 2) and `retryFEx`: the success value 42 is returned after
exactly 3 invocations, and the delay before attempt 2 is min(1*2^0, 60) and
before attempt 3 is min(1*2^1, 60). -/
theorem bsm_c4_retry_policy_witness :
    (({ max_attempts := 3, initial_delay := 1, max_delay := 60,
        exponential_base := 2 : RetryPolicy }.execute retryFEx).1 = Except.ok 42) ∧
    (({ max_attempts := 3, initial_delay := 1, max_delay := 60,
        exponential_base := 2 : RetryPolicy }.execute retryFEx).2.1 = 3) ∧
    (({ max_attempts := 3, initial_delay := 1, max_delay := 60,
        exponential_base := 2 : RetryPolicy }.execute retryFEx).2.2.get? 0
        = some (min ((1 : ℚ) * 2 ^ 0) 60)) ∧
    (({ max_attempts := 3, initial_delay := 1, max_delay := 60,
        exponential_base := 2 : RetryPolicy }.execute retryFEx).2.2.get? 1
        = some (min ((1 : ℚ) * 2 ^ 1) 60)) := by
  have h := bsm_c4_retry_policy.2.1
    { max_attempts := 3, initial_delay := 1, max_delay := 60, exponential_base := 2 }
    retryFEx 42 (by decide)
    (fun i hi => by
      have h2 : i < 2 := hi
      match i, h2 with
      | 0, _ => exact ⟨"e0", rfl⟩
      | 1, _ => exact ⟨"e1", rfl⟩
      | n + 2, hc => exact absurd hc (by omega))
    rfl
  exact ⟨h.1, h.2.1, h.2.2 2 (by decide) (by decide), h.2.2 3 (by decide) (by decide)⟩

/- ## Provider fallback chain (src/bsm/core/ai_providers.py, AIProviderManager) -/

/-- A provider result dict.  Option-valued fields record key presence: a
dict contains the key 'error' exactly when `error` is `some`; other keys
the chain reads or writes are modelled likewise, and `payload` stands for
the remaining entries of the dict. -/
structure PyDict where
  error : Option String
  provider_used : Option String
  fallback_used : Option Bool
  providers_tried : Option (List String)
  confidence_score : Option ℚ
  payload : List (String × String)
deriving DecidableEq, Repr

/-- The terminal all-failed dict built at the end of
`analyze_with_fallback`: error "All AI providers failed",
confidence_score 0.0, providers_tried = [primary] + fallbacks. -/
def allProvidersFailed (primary : String) (fallbacks : List String) : PyDict :=
  { error := some "All AI providers failed"
    provider_used := none
    fallback_used := none
    providers_tried := some (primary :: fallbacks)
    confidence_score := some 0
    payload := [] }

/-- The fallback loop of `analyze_with_fallback`.  The registry
`self.providers` is a finite map from name to provider; invoking a
provider's `analyze_text` either raises (Except.error) or returns a dict
(Except.ok).  Unregistered names are skipped, exceptions are caught and the
loop continues, a returned dict with an 'error' key is passed over, and the
first dict without one is tagged and returned. -/
def tryFallbacks (providers : List (String × Except String PyDict)) :
    List String → Option PyDict
  | [] => none
  | n :: rest =>
    match providers.lookup n with
    | none => tryFallbacks providers rest
    | some (Except.error _) => tryFallbacks providers rest
    | some (Except.ok d) =>
        if d.error = none then
          some {d with provider_used := some n, fallback_used := some true}
        else
          tryFallbacks providers rest

/-- `AIProviderManager.analyze_with_fallback`: try the primary provider if
registered (its call NOT being wrapped in try/except, an exception it
raises propagates), return its result tagged `provider_used` when it has no
'error' key, otherwise run the fallback loop, and if that fails too return
the all-failed dict. -/
def analyze_with_fallback (providers : List (String × Except String PyDict))
    (primary : String) (fallbacks : List String) : Except String PyDict :=
  match providers.lookup primary with
  | some (Except.error e) => Except.error e
  | some (Except.ok d) =>
      if d.error = none then
        Except.ok {d with provider_used := some primary}
      else
        match tryFallbacks providers fallbacks with
        | some d' => Except.ok d'
        | none => Except.ok (allProvidersFailed primary fallbacks)
  | none =>
      match tryFallbacks providers fallbacks with
      | some d' => Except.ok d'
      | none => Except.ok (allProvidersFailed primary fallbacks)

/-- A successful provider payload with no 'error' key. -/
def okDict : PyDict :=
  { error := none
    provider_used := none
    fallback_used := none
    providers_tried := none
    confidence_score := some 1
    payload := [("summary", "analysis")] }

/-- A well-formed provider payload that itself encodes failure through its
'error' key (as the providers in the source return on connection errors). -/
def errDict : PyDict :=
  { error := some "Ollama connection error: refused"
    provider_used := some "Ollama"
    fallback_used := none
    providers_tried := none
    confidence_score := some 0
    payload := [] }

/-- C5 counterexample.  With primary provider "A" whose `analyze_text`
raises and a healthy fallback "B", `analyze_with_fallback` raises the
primary's exception instead of converting it into a fallback attempt: the
call to the primary is not inside any try/except. -/
theorem bsm_c5_counterexample :
    analyze_with_fallback [("A", Except.error "boom"), ("B", Except.ok okDict)]
        "A" ["B"]
      = Except.error "boom" := rfl

theorem tryFallbacks_total (providers : List (String × Except String PyDict)) :
    ∀ names, tryFallbacks providers names = none ∨
      ∃ d, tryFallbacks providers names = some d := by
  intro names
  cases h : tryFallbacks providers names with
  | none => exact Or.inl rfl
  | some d => exact Or.inr ⟨d, rfl⟩

/-- C5 amended.  An exception raised by a FALLBACK provider is caught at the
chain boundary and converted into the next fallback attempt, and whenever
the primary call does not itself raise (it is unregistered or returns a
dict, error-marked or not) `analyze_with_fallback` returns a value and
never raises — but an exception raised by the primary provider propagates
to the caller. -/
theorem bsm_c5_amended_fallback_exceptions_caught :
    (∀ (providers : List (String × Except String PyDict)) (n : String)
        (rest : List String) (e : String),
      providers.lookup n = some (Except.error e) →
      tryFallbacks providers (n :: rest) = tryFallbacks providers rest) ∧
    (∀ (providers : List (String × Except String PyDict)) (primary : String)
        (fallbacks : List String),
      (∀ e, providers.lookup primary ≠ some (Except.error e)) →
      ∃ d, analyze_with_fallback providers primary fallbacks = Except.ok d) := by
  constructor
  · intro providers n rest e h
    simp [tryFallbacks, h]
  · intro providers primary fallbacks hnr
    rcases hp : providers.lookup primary with _ | r
    · rcases hf : tryFallbacks providers fallbacks with _ | d'
      · exact ⟨allProvidersFailed primary fallbacks,
          by simp [analyze_with_fallback, hp, hf]⟩
      · exact ⟨d', by simp [analyze_with_fallback, hp, hf]⟩
    · rcases r with e | d
      · exact absurd hp (hnr e)
      · by_cases hd : d.error = none
        · exact ⟨{d with provider_used := some primary},
            by simp [analyze_with_fallback, hp, hd]⟩
        · rcases hf : tryFallbacks providers fallbacks with _ | d'
          · exact ⟨allProvidersFailed primary fallbacks,
              by simp [analyze_with_fallback, hp, hd, hf]⟩
          · exact ⟨d', by simp [analyze_with_fallback, hp, hd, hf]⟩

/-- Witness for the amended C5: a throwing fallback "B" is skipped in favour
of the rest of the chain, and with a primary that returns an error-marked
dict (no exception) the chain returns a value. -/
theorem bsm_c5_amended_fallback_exceptions_caught_witness :
    tryFallbacks [("B", Except.error "down"), ("C", Except.ok okDict)] ["B", "C"]
        = tryFallbacks [("B", Except.error "down"), ("C", Except.ok okDict)] ["C"] ∧
    ∃ d, analyze_with_fallback [("A", Except.ok errDict)] "A" ["B"] = Except.ok d := by
  have h := bsm_c5_amended_fallback_exceptions_caught
  constructor
  · exact h.1 [("B", Except.error "down"), ("C", Except.ok okDict)] "B" ["C"] "down" rfl
  · refine h.2 [("A", Except.ok errDict)] "A" ["B"] ?_
    intro e he
    rw [show List.lookup "A" [("A", Except.ok errDict)] = some (Except.ok errDict) from rfl] at he
    simp at he

/-- C6.  The chain tries the primary first when registered, returning its
result tagged `provider_used = primary` when it carries no error marker;
otherwise (primary unregistered or error-marked) it runs the fallback loop
over the given names in order, where the first name whose provider returns
an unmarked result is returned tagged `provider_used = name` and
`fallback_used = true`, and a name that is unregistered, raises, or returns
a well-formed but error-marked payload is passed over — success is judged
solely by the absence of the error marker. -/
theorem bsm_c6_fallback_order_and_tagging :
    (∀ (providers : List (String × Except String PyDict)) (primary : String)
        (fallbacks : List String) (d : PyDict),
      providers.lookup primary = some (Except.ok d) → d.error = none →
      analyze_with_fallback providers primary fallbacks
        = Except.ok {d with provider_used := some primary}) ∧
    (∀ (providers : List (String × Except String PyDict)) (primary : String)
        (fallbacks : List String),
      providers.lookup primary = none →
      analyze_with_fallback providers primary fallbacks
        = match tryFallbacks providers fallbacks with
          | some d' => Except.ok d'
          | none => Except.ok (allProvidersFailed primary fallbacks)) ∧
    (∀ (providers : List (String × Except String PyDict)) (primary : String)
        (fallbacks : List String) (d : PyDict),
      providers.lookup primary = some (Except.ok d) → d.error ≠ none →
      analyze_with_fallback providers primary fallbacks
        = match tryFallbacks providers fallbacks with
          | some d' => Except.ok d'
          | none => Except.ok (allProvidersFailed primary fallbacks)) ∧
    (∀ (providers : List (String × Except String PyDict)) (n : String)
        (rest : List String) (d : PyDict),
      providers.lookup n = some (Except.ok d) → d.error = none →
      tryFallbacks providers (n :: rest)
        = some {d with provider_used := some n, fallback_used := some true}) ∧
    (∀ (providers : List (String × Except String PyDict)) (n : String)
        (rest : List String),
      (providers.lookup n = none ∨
       (∃ e, providers.lookup n = some (Except.error e)) ∨
       (∃ d, providers.lookup n = some (Except.ok d) ∧ d.error ≠ none)) →
      tryFallbacks providers (n :: rest) = tryFallbacks providers rest) := by
  refine ⟨?_, ?_, ?_, ?_, ?_⟩
  · intro providers primary fallbacks d hp hd
    simp [analyze_with_fallback, hp, hd]
  · intro providers primary fallbacks hp
    simp [analyze_with_fallback, hp]
  · intro providers primary fallbacks d hp hd
    simp [analyze_with_fallback, hp, hd]
  · intro providers n rest d hn hd
    simp [tryFallbacks, hn, hd]
  · intro providers n rest h
    rcases h with h | ⟨e, h⟩ | ⟨d, h, hd⟩
    · simp [tryFallbacks, h]
    · simp [tryFallbacks, h]
    · simp [tryFallbacks, h, hd]

/-- Witness for C6 at a concrete registry: primary "A" succeeding is tagged
with provider_used only; with primary "A" error-marked, fallback "C" (after
a "B" that is error-marked) succeeds and is tagged fallback_used = true;
the error-marked "B" is passed over although its call raised nothing. -/
theorem bsm_c6_fallback_order_and_tagging_witness :
    analyze_with_fallback [("A", Except.ok okDict)] "A" ["B"]
        = Except.ok {okDict with provider_used := some "A"} ∧
    tryFallbacks [("A", Except.ok errDict), ("B", Except.ok errDict), ("C", Except.ok okDict)]
        ["B", "C"]
        = tryFallbacks [("A", Except.ok errDict), ("B", Except.ok errDict), ("C", Except.ok okDict)]
            ["C"] ∧
    tryFallbacks [("A", Except.ok errDict), ("B", Except.ok errDict), ("C", Except.ok okDict)]
        ["C"]
        = some {okDict with provider_used := some "C", fallback_used := some true} ∧
    analyze_with_fallback [("A", Except.ok errDict), ("B", Except.ok errDict), ("C", Except.ok okDict)]
        "A" ["B", "C"]
        = Except.ok {okDict with provider_used := some "C", fallback_used := some true} := by
  have h := bsm_c6_fallback_order_and_tagging
  have h1 := h.1 [("A", Except.ok okDict)] "A" ["B"] okDict rfl rfl
  have h5 := h.2.2.2.2 [("A", Except.ok errDict), ("B", Except.ok errDict), ("C", Except.ok okDict)]
    "B" ["C"] (Or.inr (Or.inr ⟨errDict, rfl, by simp [errDict]⟩))
  have h4 := h.2.2.2.1 [("A", Except.ok errDict), ("B", Except.ok errDict), ("C", Except.ok okDict)]
    "C" [] okDict rfl rfl
  have h3 := h.2.2.1 [("A", Except.ok errDict), ("B", Except.ok errDict), ("C", Except.ok okDict)]
    "A" ["B", "C"] errDict rfl (by simp [errDict])
  refine ⟨h1, h5, h4, ?_⟩
  rw [h3, h5, h4]

/-- A provider attempt fails, in the sense of steps 1-3 of the chain: the
name is unregistered, or the call raises, or it returns an error-marked
payload. -/
def attemptFails (providers : List (String × Except String PyDict)) (n : String) : Prop :=
  providers.lookup n = none ∨
  (∃ e, providers.lookup n = some (Except.error e)) ∨
  (∃ d, providers.lookup n = some (Except.ok d) ∧ d.error ≠ none)

theorem tryFallbacks_all_fail (providers : List (String × Except String PyDict)) :
    ∀ names, (∀ n ∈ names, attemptFails providers n) →
      tryFallbacks providers names = none := by
  intro names
  induction names with
  | nil => intro _; rfl
  | cons n rest ih =>
      intro h
      have hn := h n (List.mem_cons_self n rest)
      have hrest := ih (fun m hm => h m (List.mem_cons_of_mem n hm))
      rcases hn with hn | ⟨e, hn⟩ | ⟨d, hn, hd⟩
      · simpa [tryFallbacks, hn] using hrest
      · simpa [tryFallbacks, hn] using hrest
      · simpa [tryFallbacks, hn, hd] using hrest

/-- C7 counterexample.  An all-fail scenario inside the claim's scope where
the chain does NOT return the terminal data value: the primary provider "A"
fails by raising and the only fallback "B" fails by returning an
error-marked payload — every provider attempt fails, yet
`analyze_with_fallback` propagates the primary's exception instead of
returning the all-failed dict carrying providers_tried. -/
theorem bsm_c7_counterexample :
    List.lookup "A" [("A", Except.error "boom"), ("B", Except.ok errDict)]
        = some (Except.error "boom") ∧
    List.lookup "B" [("A", Except.error "boom"), ("B", Except.ok errDict)]
        = some (Except.ok errDict) ∧
    errDict.error = some "Ollama connection error: refused" ∧
    analyze_with_fallback [("A", Except.error "boom"), ("B", Except.ok errDict)]
        "A" ["B"]
        = Except.error "boom" :=
  ⟨rfl, rfl, rfl, rfl⟩

/-- C7 amended.  When the primary attempt fails without raising
(unregistered or error-marked result) and every fallback attempt fails
(unregistered, raises, or error-marked), the chain returns the terminal
all-failed dict as a value — not an exception — whose error key is set and
whose providers_tried key carries [primary] + fallbacks, the list of
attempted provider names; when the primary attempt fails by raising, the
exception propagates to the caller instead. -/
theorem bsm_c7_amended_all_failed_value :
    ∀ (providers : List (String × Except String PyDict)) (primary : String)
      (fallbacks : List String),
      (providers.lookup primary = none ∨
       (∃ d, providers.lookup primary = some (Except.ok d) ∧ d.error ≠ none)) →
      (∀ n ∈ fallbacks, attemptFails providers n) →
      analyze_with_fallback providers primary fallbacks
          = Except.ok (allProvidersFailed primary fallbacks) ∧
      (allProvidersFailed primary fallbacks).error = some "All AI providers failed" ∧
      (allProvidersFailed primary fallbacks).providers_tried
          = some (primary :: fallbacks) := by
  intro providers primary fallbacks hp hf
  have hnone := tryFallbacks_all_fail providers fallbacks hf
  refine ⟨?_, rfl, rfl⟩
  rcases hp with hp | ⟨d, hp, hd⟩
  · simp [analyze_with_fallback, hp, hnone]
  · simp [analyze_with_fallback, hp, hd, hnone]

/-- Witness for the amended C7: primary "A" returns an error-marked dict,
fallback "B" raises and "C" is unregistered; the chain returns the
all-failed value carrying ["A", "B", "C"]. -/
theorem bsm_c7_amended_all_failed_value_witness :
    analyze_with_fallback [("A", Except.ok errDict), ("B", Except.error "down")]
        "A" ["B", "C"]
        = Except.ok (allProvidersFailed "A" ["B", "C"]) ∧
    (allProvidersFailed "A" ["B", "C"]).providers_tried = some ["A", "B", "C"] := by
  have h := bsm_c7_amended_all_failed_value [("A", Except.ok errDict), ("B", Except.error "down")]
    "A" ["B", "C"]
    (Or.inr ⟨errDict, rfl, by simp [errDict]⟩)
    (fun n hn => by
      simp only [List.mem_cons, List.not_mem_nil, or_false] at hn
      rcases hn with rfl | rfl
      · exact Or.inr (Or.inl ⟨"down", rfl⟩)
      · exact Or.inl rfl)
  exact ⟨h.1, h.2.2⟩

/- ## Task orchestrator (src/bsm/core/async_manager.py, AsyncTaskManager) -/

/-- TaskStatus of async_manager.py. -/
inductive TaskStatus where
  | pending
  | running
  | completed
  | failed
  | cancelled
deriving DecidableEq, Repr

/-- TaskResult of async_manager.py, restricted to the fields
`_handle_task_completion` routes on (status, error); the opaque success
payload and the duration do not affect which signal is emitted. -/
structure TaskResult where
  status : TaskStatus
  error : Option String
deriving DecidableEq, Repr

/-- The Qt signals of AsyncTaskManager, with their payloads. -/
inductive Sig where
  | started (id : String)
  | progress (id : String) (percent : Int)
  | completed (id : String)
  | failed (id : String) (msg : String)
  | cancelled (id : String)
deriving DecidableEq, Repr

/-- The manager's bookkeeping: ids present in `self._task_futures`, ids
present in `self._tasks` (the per-task asyncio task, present only while
`_run_async_task` is executing), and the `_shutdown` flag. -/
structure ManagerState where
  task_futures : List String
  tasks : List String
  shutdown : Bool
deriving DecidableEq, Repr

/-- `submit_async_task`: reject when shutting down, reject a duplicate id
already in `_task_futures`, otherwise record the future and emit
task_started. -/
def submit_async_task (s : ManagerState) (id : String) : ManagerState × List Sig :=
  if s.shutdown then
    (s, [Sig.failed id "Task manager is shutting down"])
  else if id ∈ s.task_futures then
    (s, [Sig.failed id ("Task " ++ id ++ " is already running")])
  else
    ({s with task_futures := id :: s.task_futures}, [Sig.started id])

/-- `is_task_running`: membership in `_task_futures`. -/
def is_task_running (s : ManagerState) (id : String) : Bool :=
  decide (id ∈ s.task_futures)

/-- What `cancel_task` did: cancelled the running asyncio task, cancelled
the pending future, or nothing. -/
inductive CancelAction where
  | asyncioTaskCancel
  | futureCancel
  | noop
deriving DecidableEq, Repr

/-- `cancel_task`: cancel the asyncio task when the id is in `_tasks`, else
cancel the future when the id is in `_task_futures`, else return False. -/
def cancel_task (s : ManagerState) (id : String) : Bool × CancelAction :=
  if id ∈ s.tasks then (true, CancelAction.asyncioTaskCancel)
  else if id ∈ s.task_futures then (true, CancelAction.futureCancel)
  else (false, CancelAction.noop)

/-- How one submitted task's execution turns out, covering every outcome
the worker can see: normal return, an exception from the body, timeout,
cooperative cancellation observed while running, and cancellation of the
future before the executor ever started `_run_async_task`. -/
inductive RunOutcome where
  | ok
  | exc (msg : String)
  | timedOut
  | cancelledDuringRun
  | cancelledBeforeRun
deriving DecidableEq, Repr

/-- `_run_async_task`'s returned TaskResult (none when the future was
cancelled before the executor ran it, so the function never executed).
Numeric formatting of the timeout value in the message is elided. -/
def run_async_task (id : String) (o : RunOutcome) : Option TaskResult :=
  match o with
  | RunOutcome.ok => some ⟨TaskStatus.completed, none⟩
  | RunOutcome.exc m => some ⟨TaskStatus.failed, some m⟩
  | RunOutcome.timedOut => some ⟨TaskStatus.failed, some ("Task " ++ id ++ " timed out")⟩
  | RunOutcome.cancelledDuringRun => some ⟨TaskStatus.cancelled, none⟩
  | RunOutcome.cancelledBeforeRun => none

/-- `_handle_task_completion`: `future.result()` either returns the
TaskResult (emit exactly one of task_completed / task_cancelled /
task_failed) or — when the future was cancelled before running — raises
concurrent.futures.CancelledError, which on Python >= 3.8 is a
BaseException that the `except Exception` handler does not catch, so no
signal at all is emitted. -/
def handle_task_completion (id : String) (fr : Option TaskResult) : List Sig :=
  match fr with
  | some r =>
      match r.status with
      | TaskStatus.completed => [Sig.completed id]
      | TaskStatus.cancelled => [Sig.cancelled id]
      | _ => [Sig.failed id (r.error.getD "Unknown error")]
  | none => []

/-- `update_progress`: emit progress_updated only for 0 <= progress <= 100. -/
def update_progress (id : String) (percent : Int) : List Sig :=
  if 0 ≤ percent ∧ percent ≤ 100 then [Sig.progress id percent] else []

/-- The signals emitted for one submission, in delivery order: the
submission-time rejections, else task_started, then the progress updates
the body issues while it runs (none when the future never ran), then
whatever `_handle_task_completion` emits for the future's outcome. -/
def taskTrace (shutdown duplicate : Bool) (id : String)
    (progressCalls : List Int) (o : RunOutcome) : List Sig :=
  if shutdown then [Sig.failed id "Task manager is shutting down"]
  else if duplicate then [Sig.failed id ("Task " ++ id ++ " is already running")]
  else
    Sig.started id ::
      ((match o with
        | RunOutcome.cancelledBeforeRun => []
        | _ => progressCalls.flatMap (update_progress id)) ++
       handle_task_completion id (run_async_task id o))

/-- Terminal notifications are task_completed, task_failed, task_cancelled. -/
def isTerminal (s : Sig) : Bool :=
  match s with
  | Sig.completed _ => true
  | Sig.failed _ _ => true
  | Sig.cancelled _ => true
  | _ => false

theorem progress_not_terminal (id : String) (ps : List Int) :
    (ps.flatMap (update_progress id)).filter isTerminal = [] := by
  induction ps with
  | nil => rfl
  | cons p rest ih =>
      simp only [List.flatMap_cons, List.filter_append, ih, List.append_nil]
      rw [update_progress]
      split <;> rfl

theorem taskTrace_one_terminal (sh dup : Bool) (id : String) (ps : List Int)
    (o : RunOutcome) (h : o ≠ RunOutcome.cancelledBeforeRun) :
    ((taskTrace sh dup id ps o).filter isTerminal).length = 1 := by
  rcases sh with _ | _
  · rcases dup with _ | _
    · have hh : ∀ fr, (handle_task_completion id (some fr)).filter isTerminal
          = handle_task_completion id (some fr) := by
        intro fr
        rw [handle_task_completion]
        rcases fr with ⟨st, err⟩
        rcases st with _ | _ | _ | _ | _ <;> rfl
      rcases o with _ | m | _ | _ | _ <;>
        simp [taskTrace, List.filter_append, progress_not_terminal, hh,
          handle_task_completion, run_async_task, isTerminal] at h ⊢
    · rfl
  · rfl

/-- C2.  Submitting an id already in `_task_futures` (manager not shutting
down) is rejected synchronously: the state is unchanged — nothing queued,
nothing dispatched — the only signal emitted is the task_failed rejection
carrying the duplicate message, and no second task_started is emitted. -/
theorem bsm_c2_duplicate_submission_rejected :
    ∀ (s : ManagerState) (id : String),
      s.shutdown = false → id ∈ s.task_futures →
      submit_async_task s id
          = (s, [Sig.failed id ("Task " ++ id ++ " is already running")]) ∧
      (submit_async_task s id).1 = s ∧
      Sig.started id ∉ (submit_async_task s id).2 := by
  intro s id hsh hin
  have h : submit_async_task s id
      = (s, [Sig.failed id ("Task " ++ id ++ " is already running")]) := by
    simp [submit_async_task, hsh, hin]
  refine ⟨h, by rw [h], ?_⟩
  rw [h]
  simp

/-- Witness for C2: with task "t" in flight, resubmitting "t" is rejected
with the duplicate task_failed and without a second task_started. -/
theorem bsm_c2_duplicate_submission_rejected_witness :
    submit_async_task ⟨["t"], ["t"], false⟩ "t"
        = (⟨["t"], ["t"], false⟩, [Sig.failed "t" "Task t is already running"]) ∧
    Sig.started "t" ∉ (submit_async_task ⟨["t"], ["t"], false⟩ "t").2 := by
  have h := bsm_c2_duplicate_submission_rejected ⟨["t"], ["t"], false⟩ "t" rfl
    (by simp)
  exact ⟨h.1, h.2.2⟩

/-- C9.  `cancel_task` on an id that is neither running nor pending (the
task has completed and been handed off, or the id is unknown) is a no-op
returning False; on an in-flight id it returns True and signals cooperative
cancellation — to the running asyncio task when the body is executing,
otherwise to the pending future. -/
theorem bsm_c9_cancel_semantics :
    ∀ (s : ManagerState) (id : String),
      (id ∉ s.tasks → id ∉ s.task_futures →
        cancel_task s id = (false, CancelAction.noop)) ∧
      (id ∈ s.tasks → cancel_task s id = (true, CancelAction.asyncioTaskCancel)) ∧
      (id ∉ s.tasks → id ∈ s.task_futures →
        cancel_task s id = (true, CancelAction.futureCancel)) ∧
      (is_task_running s id = true →
        (cancel_task s id).1 = true ∧ (cancel_task s id).2 ≠ CancelAction.noop) := by
  intro s id
  refine ⟨?_, ?_, ?_, ?_⟩
  · intro h1 h2
    simp [cancel_task, h1, h2]
  · intro h1
    simp [cancel_task, h1]
  · intro h1 h2
    simp [cancel_task, h1, h2]
  · intro hrun
    have h2 : id ∈ s.task_futures := by
      simpa [is_task_running] using hrun
    by_cases h1 : id ∈ s.tasks
    · simp [cancel_task, h1]
    · simp [cancel_task, h1, h2]

/-- Witness for C9: cancelling on the empty manager returns False/no-op;
cancelling an id whose body is executing cancels the asyncio task;
cancelling an id whose future is still pending cancels the future. -/
theorem bsm_c9_cancel_semantics_witness :
    cancel_task ⟨[], [], false⟩ "t" = (false, CancelAction.noop) ∧
    cancel_task ⟨["t"], ["t"], false⟩ "t" = (true, CancelAction.asyncioTaskCancel) ∧
    cancel_task ⟨["t"], [], false⟩ "t" = (true, CancelAction.futureCancel) := by
  have h1 := (bsm_c9_cancel_semantics ⟨[], [], false⟩ "t").1 (by simp) (by simp)
  have h2 := (bsm_c9_cancel_semantics ⟨["t"], ["t"], false⟩ "t").2.1 (by simp)
  have h3 := (bsm_c9_cancel_semantics ⟨["t"], [], false⟩ "t").2.2.1 (by simp) (by simp)
  exact ⟨h1, h2, h3⟩

end BSM
